import Mathlib

/-!
Shallow embedding of `Windows_and_Linux/AutoCorrectMode.py` (class
`AutoCorrectMode`): a debounced keystroke buffer that, after a pause in
typing, sends the captured text to an external proofreading provider and
replaces the typed text with the corrected version.

State (`__init__`): `enabled`, `buffer` (list of captured characters),
`debounce_timer` (modelled as a Bool: whether a live pending timer exists),
`is_correcting` (reentrancy guard).  The external provider is modelled as a
function from (instruction, prompt) to a result that is either an exception
(`err`) or a returned string (`ok`); the injection sink is modelled by the
list of synthetic events a flush emits.  Emission failure partway through
the replacement sequence is modelled by an optional cut point after which
no further events are emitted.
-/

namespace AutoCorrect

/-- Key events delivered by the keyboard listener, as classified by
`on_key_press`: a printable character (`key.char` truthy), space,
backspace, enter, or any other key (arrows, tab, modifiers, ...). -/
inductive Key where
  | char (c : Char)
  | space
  | backspace
  | enter
  | other
deriving DecidableEq, Repr

/-- Result of `current_provider.get_response`: an exception (`err`) or a
returned string (`ok`); `ok ""` is the falsy empty response. -/
inductive ProviderResult where
  | err
  | ok (response : String)
deriving DecidableEq, Repr

/-- Synthetic events sent to the injection sink (`pykeyboard.Controller`)
during replacement: backspace press, backspace release, and the single
`type` operation carrying the corrected text. -/
inductive InjectionEvent where
  | backspacePress
  | backspaceRelease
  | typeText (s : String)
deriving DecidableEq, Repr

/-- The mutable state of `AutoCorrectMode`. -/
structure AutoCorrectState where
  enabled : Bool
  buffer : List Char
  debounce_timer : Bool
  is_correcting : Bool
deriving DecidableEq, Repr

/-- Constructor `__init__`: mode starts disabled with an empty buffer, no timer and the
guard clear. -/
def initState : AutoCorrectState :=
  { enabled := false, buffer := [], debounce_timer := false, is_correcting := false }

/-- Constant `self.MIN_BUFFER_LENGTH = 2`. -/
def MIN_BUFFER_LENGTH : Nat := 2

/-- Constant `self.PAUSE_DELAY = 2.0` (time-units). -/
def PAUSE_DELAY : ℚ := 2

/-- The proofread options read from `options.json` at flush time:
`prefix` (default `'Proofread this:\n\n'`) and `instruction` (default `''`),
already resolved to their effective values. -/
structure ProofreadConfig where
  prefixTemplate : String
  instruction : String
deriving DecidableEq, Repr

/-- A provider: `get_response(instruction, prompt, return_response=True)`. -/
def Provider : Type := String → String → ProviderResult

/-- Test `'ERROR_TEXT_INCOMPATIBLE' in response`: Boolean contiguous-sublist
containment of the needle in the haystack, character-wise. -/
def listHasInfix (needle : List Char) : List Char → Bool
  | [] => needle.isEmpty
  | c :: rest => needle.isPrefixOf (c :: rest) || listHasInfix needle rest

/-- The incompatible-content sentinel the provider may embed in a response. -/
def sentinelText : String := "ERROR_TEXT_INCOMPATIBLE"

/-- Drop leading whitespace characters. -/
def dropLeadingWs : List Char → List Char
  | [] => []
  | c :: rest => if c.isWhitespace then dropLeadingWs rest else c :: rest

/-- Python `response.strip()`: remove leading and trailing whitespace. -/
def stripString (s : String) : String :=
  String.mk ((dropLeadingWs (dropLeadingWs s.data).reverse).reverse)

/-- Whether a response string contains the sentinel substring. -/
def containsSentinel (s : String) : Bool :=
  listHasInfix sentinelText.data s.data

/-- The erase sequence: `buffer_len` iterations of
`kbrd.press(backspace); kbrd.release(backspace)`. -/
def backspaceEvents (n : Nat) : List InjectionEvent :=
  (List.replicate n [InjectionEvent.backspacePress, InjectionEvent.backspaceRelease]).flatten

/-- Instrumented result of one `trigger_correction` call: the state it
leaves behind, the snapshot (original text and length) it took — `none`
when the precondition failed —, the injection events actually emitted, and
whether the `is_correcting` guard was ever set during the call. -/
structure FlushResult where
  state : AutoCorrectState
  snapshot : Option (String × Nat)
  events : List InjectionEvent
  guardSetDuring : Bool
deriving DecidableEq, Repr

/-- Method `trigger_correction`: precondition `self.buffer` non-empty and
`self.enabled`; snapshot `original_text`/`buffer_len`, clear the buffer,
build the prompt, call the provider; abort on exception, falsy response,
sentinel, or identity (post-`strip`) correction; otherwise set the guard,
emit `buffer_len` backspace press/release pairs then type the corrected
text (truncated at `emitFail` if the sink raises partway), and clear the
guard in the `finally`. -/
def trigger_correction (cfg : ProofreadConfig) (gp : Provider)
    (emitFail : Option Nat) (st : AutoCorrectState) : FlushResult :=
  if st.buffer.isEmpty || !st.enabled then
    { state := st, snapshot := none, events := [], guardSetDuring := false }
  else
    let original_text := String.mk st.buffer
    let buffer_len := st.buffer.length
    let st1 := { st with buffer := ([] : List Char) }
    let prompt := cfg.prefixTemplate ++ original_text
    match gp cfg.instruction prompt with
    | ProviderResult.err =>
        { state := st1, snapshot := some (original_text, buffer_len),
          events := [], guardSetDuring := false }
    | ProviderResult.ok response =>
        if response = "" || containsSentinel response then
          { state := st1, snapshot := some (original_text, buffer_len),
            events := [], guardSetDuring := false }
        else
          let corrected_text := stripString response
          if corrected_text = original_text then
            { state := st1, snapshot := some (original_text, buffer_len),
              events := [], guardSetDuring := false }
          else
            let fullEvents :=
              backspaceEvents buffer_len ++ [InjectionEvent.typeText corrected_text]
            let emitted := match emitFail with
              | none => fullEvents
              | some k => fullEvents.take k
            { state := { st1 with is_correcting := false },
              snapshot := some (original_text, buffer_len),
              events := emitted, guardSetDuring := true }

/-- Start/restart of the debounce timer at the end of `on_key_press`: a new
timer is created only when the buffer meets the minimum length. -/
def restartTimer (st : AutoCorrectState) : AutoCorrectState :=
  if MIN_BUFFER_LENGTH ≤ st.buffer.length then { st with debounce_timer := true } else st

/-- Method `on_key_press(key)`: no-op when disabled or correcting; otherwise
cancel the pending timer, classify the key (append char/space, pop on
backspace, synchronous flush then clear on enter at threshold, clear on
other keys), and restart the debounce timer when the buffer meets the
threshold.  Returns the new state and the injection events emitted (only
the enter path can emit any). -/
def on_key_press (cfg : ProofreadConfig) (gp : Provider) (emitFail : Option Nat)
    (st : AutoCorrectState) (key : Key) : AutoCorrectState × List InjectionEvent :=
  if !st.enabled || st.is_correcting then (st, [])
  else
    let st0 := { st with debounce_timer := false }
    match key with
    | Key.char c => (restartTimer { st0 with buffer := st0.buffer ++ [c] }, [])
    | Key.space => (restartTimer { st0 with buffer := st0.buffer ++ [' '] }, [])
    | Key.backspace => (restartTimer { st0 with buffer := st0.buffer.dropLast }, [])
    | Key.enter =>
        if MIN_BUFFER_LENGTH ≤ st0.buffer.length then
          let fr := trigger_correction cfg gp emitFail st0
          ({ fr.state with buffer := ([] : List Char) }, fr.events)
        else
          ({ st0 with buffer := ([] : List Char) }, [])
    | Key.other => ({ st0 with buffer := ([] : List Char) }, [])

/-- Method `toggle()`: flip `enabled`, clear the buffer, cancel any pending timer,
and emit exactly one `autocorrect_toggled_signal` notification carrying the
new flag (returned as the list of emitted notifications). -/
def toggle (st : AutoCorrectState) : AutoCorrectState × List Bool :=
  let st1 : AutoCorrectState :=
    { enabled := !st.enabled, buffer := [], debounce_timer := false,
      is_correcting := st.is_correcting }
  (st1, [st1.enabled])

/-- Deliver a list of key events in order, each within the pause delay of
the previous one (so no intermediate timer fires), threading the state. -/
def processKeys (cfg : ProofreadConfig) (gp : Provider) (emitFail : Option Nat)
    (st : AutoCorrectState) (keys : List Key) : AutoCorrectState :=
  keys.foldl (fun s k => (on_key_press cfg gp emitFail s k).1) st

/-- Quiet-period semantics of the scheduler: after `quiet` time-units with
no key events, the single pending timer (if any) fires `trigger_correction`
once, provided `quiet` reaches the pause delay.  A fired timer is no longer
pending. -/
def quietFire (cfg : ProofreadConfig) (gp : Provider) (emitFail : Option Nat)
    (quiet : ℚ) (st : AutoCorrectState) : Option FlushResult :=
  if st.debounce_timer = true ∧ PAUSE_DELAY ≤ quiet then
    some (trigger_correction cfg gp emitFail { st with debounce_timer := false })
  else
    none

/-- The character a printable/space key appends to the buffer, if any. -/
def printableKeyChar : Key → Option Char
  | Key.char c => some c
  | Key.space => some ' '
  | _ => none

/-- Reachable-state invariant: a pending debounce timer implies the buffer
meets the minimum length threshold. -/
def TimerInv (st : AutoCorrectState) : Prop :=
  st.debounce_timer = true → MIN_BUFFER_LENGTH ≤ st.buffer.length

end AutoCorrect

namespace AutoCorrect

/-- Case analysis of `trigger_correction`: failed precondition is a
complete no-op. -/
theorem trigger_correction_noop (cfg : ProofreadConfig) (gp : Provider) (ef : Option Nat)
    (st : AutoCorrectState) (h : st.buffer = [] ∨ st.enabled = false) :
    trigger_correction cfg gp ef st =
      { state := st, snapshot := none, events := [], guardSetDuring := false } := by
  rcases h with h | h <;> simp [trigger_correction, h]

/-- Case analysis of `trigger_correction`: the provider raised. -/
theorem trigger_correction_err (cfg : ProofreadConfig) (gp : Provider) (ef : Option Nat)
    (st : AutoCorrectState) (hb : st.buffer ≠ []) (hen : st.enabled = true)
    (hgp : gp cfg.instruction (cfg.prefixTemplate ++ String.mk st.buffer) = ProviderResult.err) :
    trigger_correction cfg gp ef st =
      { state := { st with buffer := [] },
        snapshot := some (String.mk st.buffer, st.buffer.length),
        events := [], guardSetDuring := false } := by
  simp [trigger_correction, hb, hen, hgp]

/-- Case analysis of `trigger_correction`: empty response or sentinel. -/
theorem trigger_correction_bad (cfg : ProofreadConfig) (gp : Provider) (ef : Option Nat)
    (st : AutoCorrectState) (r : String) (hb : st.buffer ≠ []) (hen : st.enabled = true)
    (hgp : gp cfg.instruction (cfg.prefixTemplate ++ String.mk st.buffer) = ProviderResult.ok r)
    (hbad : r = "" ∨ containsSentinel r = true) :
    trigger_correction cfg gp ef st =
      { state := { st with buffer := [] },
        snapshot := some (String.mk st.buffer, st.buffer.length),
        events := [], guardSetDuring := false } := by
  rcases hbad with h | h <;> simp [trigger_correction, hb, hen, hgp, h]

/-- Case analysis of `trigger_correction`: correction identical (post
strip) to the original. -/
theorem trigger_correction_ident (cfg : ProofreadConfig) (gp : Provider) (ef : Option Nat)
    (st : AutoCorrectState) (r : String) (hb : st.buffer ≠ []) (hen : st.enabled = true)
    (hgp : gp cfg.instruction (cfg.prefixTemplate ++ String.mk st.buffer) = ProviderResult.ok r)
    (hr : ¬(r = "" ∨ containsSentinel r = true))
    (hid : stripString r = String.mk st.buffer) :
    trigger_correction cfg gp ef st =
      { state := { st with buffer := [] },
        snapshot := some (String.mk st.buffer, st.buffer.length),
        events := [], guardSetDuring := false } := by
  push_neg at hr
  simp [trigger_correction, hb, hen, hgp, hr.1, hr.2, hid]

/-- Case analysis of `trigger_correction`: the replacement path. -/
theorem trigger_correction_replace (cfg : ProofreadConfig) (gp : Provider) (ef : Option Nat)
    (st : AutoCorrectState) (r : String) (hb : st.buffer ≠ []) (hen : st.enabled = true)
    (hgp : gp cfg.instruction (cfg.prefixTemplate ++ String.mk st.buffer) = ProviderResult.ok r)
    (hr : ¬(r = "" ∨ containsSentinel r = true))
    (hne : stripString r ≠ String.mk st.buffer) :
    trigger_correction cfg gp ef st =
      { state := { st with buffer := [], is_correcting := false },
        snapshot := some (String.mk st.buffer, st.buffer.length),
        events := (match ef with
          | none => backspaceEvents st.buffer.length ++ [InjectionEvent.typeText (stripString r)]
          | some k => (backspaceEvents st.buffer.length ++ [InjectionEvent.typeText (stripString r)]).take k),
        guardSetDuring := true } := by
  push_neg at hr
  simp [trigger_correction, hb, hen, hgp, hr.1, hr.2, hne]

end AutoCorrect

namespace AutoCorrect

/-- C3: for every key event delivered while the mode is disabled or the
is-correcting guard is set, `on_key_press` is a complete no-op: it returns
immediately, emits nothing, and leaves the buffer, the pending timer and
all flags unchanged. -/
theorem c3_disabled_or_guard_noop (cfg : ProofreadConfig) (gp : Provider)
    (ef : Option Nat) (st : AutoCorrectState) (key : Key)
    (h : st.enabled = false ∨ st.is_correcting = true) :
    on_key_press cfg gp ef st key = (st, []) := by
  rcases h with h | h <;> simp [on_key_press, h]

/-- Witness for C3 at a concrete input: the freshly initialised (disabled)
state ignores an enter key entirely. -/
theorem c3_witness :
    on_key_press { prefixTemplate := "", instruction := "" }
      (fun _ _ => ProviderResult.err) none initState Key.enter = (initState, []) :=
  c3_disabled_or_guard_noop _ _ _ _ _ (Or.inl rfl)

/-- C4: if the proofreading call raises, returns an empty response, or
returns a response containing the incompatible-content sentinel, the flush
aborts: no injection events are emitted and the is-correcting guard is
never set (it is left exactly as it was). -/
theorem c4_failure_paths_no_injection (cfg : ProofreadConfig) (gp : Provider)
    (ef : Option Nat) (st : AutoCorrectState)
    (h : gp cfg.instruction (cfg.prefixTemplate ++ String.mk st.buffer) = ProviderResult.err ∨
         gp cfg.instruction (cfg.prefixTemplate ++ String.mk st.buffer) = ProviderResult.ok "" ∨
         ∃ r, gp cfg.instruction (cfg.prefixTemplate ++ String.mk st.buffer) =
            ProviderResult.ok r ∧ containsSentinel r = true) :
    (trigger_correction cfg gp ef st).events = [] ∧
    (trigger_correction cfg gp ef st).guardSetDuring = false ∧
    (trigger_correction cfg gp ef st).state.is_correcting = st.is_correcting := by
  by_cases hb : st.buffer = []
  · rw [trigger_correction_noop cfg gp ef st (Or.inl hb)]
    exact ⟨rfl, rfl, rfl⟩
  by_cases hen : st.enabled = true
  · rcases h with h | h | ⟨r, hr, hs⟩
    · rw [trigger_correction_err cfg gp ef st hb hen h]
      exact ⟨rfl, rfl, rfl⟩
    · rw [trigger_correction_bad cfg gp ef st "" hb hen h (Or.inl rfl)]
      exact ⟨rfl, rfl, rfl⟩
    · rw [trigger_correction_bad cfg gp ef st r hb hen hr (Or.inr hs)]
      exact ⟨rfl, rfl, rfl⟩
  · have hen' : st.enabled = false := by simpa using hen
    rw [trigger_correction_noop cfg gp ef st (Or.inr hen')]
    exact ⟨rfl, rfl, rfl⟩

/-- Witness for C4 at a concrete input: a response carrying the sentinel
produces zero injection events and never sets the guard. -/
theorem c4_witness :
    (trigger_correction { prefixTemplate := "", instruction := "" }
        (fun _ _ => ProviderResult.ok "bad ERROR_TEXT_INCOMPATIBLE result") none
        { enabled := true, buffer := ['h', 'i'], debounce_timer := false,
          is_correcting := false }).events = [] ∧
    (trigger_correction { prefixTemplate := "", instruction := "" }
        (fun _ _ => ProviderResult.ok "bad ERROR_TEXT_INCOMPATIBLE result") none
        { enabled := true, buffer := ['h', 'i'], debounce_timer := false,
          is_correcting := false }).guardSetDuring = false := by
  have h := c4_failure_paths_no_injection { prefixTemplate := "", instruction := "" }
    (fun _ _ => ProviderResult.ok "bad ERROR_TEXT_INCOMPATIBLE result") none
    { enabled := true, buffer := ['h', 'i'], debounce_timer := false, is_correcting := false }
    (Or.inr (Or.inr ⟨"bad ERROR_TEXT_INCOMPATIBLE result", rfl, by decide⟩))
  exact ⟨h.1, h.2.1⟩

/-- C5: an identity correction (corrected text equal, after stripping, to
the snapshotted original) emits no injection events. -/
theorem c5_identity_correction_no_events (cfg : ProofreadConfig) (gp : Provider)
    (ef : Option Nat) (st : AutoCorrectState) (r : String)
    (hgp : gp cfg.instruction (cfg.prefixTemplate ++ String.mk st.buffer) = ProviderResult.ok r)
    (hid : stripString r = String.mk st.buffer) :
    (trigger_correction cfg gp ef st).events = [] := by
  by_cases hb : st.buffer = []
  · rw [trigger_correction_noop cfg gp ef st (Or.inl hb)]
  by_cases hen : st.enabled = true
  · by_cases hbad : r = "" ∨ containsSentinel r = true
    · rw [trigger_correction_bad cfg gp ef st r hb hen hgp hbad]
    · rw [trigger_correction_ident cfg gp ef st r hb hen hgp hbad hid]
  · have hen' : st.enabled = false := by simpa using hen
    rw [trigger_correction_noop cfg gp ef st (Or.inr hen')]

/-- Witness for C5 at a concrete input: the response `" hi "` strips to the
original `"hi"`, so nothing is emitted. -/
theorem c5_witness :
    (trigger_correction { prefixTemplate := "", instruction := "" }
        (fun _ _ => ProviderResult.ok " hi ") none
        { enabled := true, buffer := ['h', 'i'], debounce_timer := false,
          is_correcting := false }).events = [] :=
  c5_identity_correction_no_events _ _ _ _ " hi " rfl (by decide)

end AutoCorrect

namespace AutoCorrect

/-- Unfolding of the erase sequence one pair at a time. -/
theorem backspaceEvents_succ (n : Nat) :
    backspaceEvents (n + 1) =
      InjectionEvent.backspacePress :: InjectionEvent.backspaceRelease :: backspaceEvents n := by
  simp [backspaceEvents, List.replicate_succ]

/-- The erase sequence contains exactly `n` presses, exactly `n` releases
and no type operation. -/
theorem backspaceEvents_counts (n : Nat) :
    (backspaceEvents n).count InjectionEvent.backspacePress = n ∧
    (backspaceEvents n).count InjectionEvent.backspaceRelease = n ∧
    ∀ s, (backspaceEvents n).count (InjectionEvent.typeText s) = 0 := by
  induction n with
  | zero => simp [backspaceEvents]
  | succ n ih =>
      refine ⟨?_, ?_, fun s => ?_⟩ <;>
        simp [backspaceEvents_succ, List.count_cons, ih.1, ih.2.1, ih.2.2]

/-- C6: a flush that proceeds to replacement emits exactly `buffer_len`
backspace press/release pairs, all before the single type operation
carrying the stripped corrected text. -/
theorem c6_replacement_event_sequence (cfg : ProofreadConfig) (gp : Provider)
    (st : AutoCorrectState) (r : String) (hb : st.buffer ≠ []) (hen : st.enabled = true)
    (hgp : gp cfg.instruction (cfg.prefixTemplate ++ String.mk st.buffer) = ProviderResult.ok r)
    (hr : ¬(r = "" ∨ containsSentinel r = true))
    (hne : stripString r ≠ String.mk st.buffer) :
    (trigger_correction cfg gp none st).events =
      backspaceEvents st.buffer.length ++ [InjectionEvent.typeText (stripString r)] ∧
    (backspaceEvents st.buffer.length).count InjectionEvent.backspacePress =
      st.buffer.length ∧
    (backspaceEvents st.buffer.length).count InjectionEvent.backspaceRelease =
      st.buffer.length := by
  have hc := backspaceEvents_counts st.buffer.length
  rw [trigger_correction_replace cfg gp none st r hb hen hgp hr hne]
  exact ⟨rfl, hc.1, hc.2.1⟩

/-- Witness for C6 at the concrete scenario: buffer `['h','e','l','l','o']`
and response `"Hello"` yield 5 backspace pairs then a type of `"Hello"`. -/
theorem c6_witness :
    (trigger_correction { prefixTemplate := "Proofread this:\n\n", instruction := "" }
        (fun _ _ => ProviderResult.ok "Hello") none
        { enabled := true, buffer := ['h', 'e', 'l', 'l', 'o'], debounce_timer := false,
          is_correcting := false }).events =
      backspaceEvents 5 ++ [InjectionEvent.typeText "Hello"] := by
  have h := c6_replacement_event_sequence
    { prefixTemplate := "Proofread this:\n\n", instruction := "" }
    (fun _ _ => ProviderResult.ok "Hello")
    { enabled := true, buffer := ['h', 'e', 'l', 'l', 'o'], debounce_timer := false,
      is_correcting := false }
    "Hello" (by decide) rfl rfl (by decide) (by decide)
  have hs : stripString "Hello" = "Hello" := by decide
  simpa [hs] using h.1

/-- C7: the is-correcting guard is released by the end of every flush that
set it (successful or failed emission alike), and a flush entered with the
guard clear always returns with it clear. -/
theorem c7_guard_released (cfg : ProofreadConfig) (gp : Provider) (ef : Option Nat)
    (st : AutoCorrectState) :
    ((trigger_correction cfg gp ef st).guardSetDuring = true →
      (trigger_correction cfg gp ef st).state.is_correcting = false) ∧
    (st.is_correcting = false →
      (trigger_correction cfg gp ef st).state.is_correcting = false) := by
  by_cases hb : st.buffer = []
  · rw [trigger_correction_noop cfg gp ef st (Or.inl hb)]
    exact ⟨fun h => by simp at h, fun h => h⟩
  by_cases hen : st.enabled = true
  · cases hgp : gp cfg.instruction (cfg.prefixTemplate ++ String.mk st.buffer) with
    | err =>
        rw [trigger_correction_err cfg gp ef st hb hen hgp]
        exact ⟨fun h => by simp at h, fun h => h⟩
    | ok r =>
        by_cases hbad : r = "" ∨ containsSentinel r = true
        · rw [trigger_correction_bad cfg gp ef st r hb hen hgp hbad]
          exact ⟨fun h => by simp at h, fun h => h⟩
        · by_cases hid : stripString r = String.mk st.buffer
          · rw [trigger_correction_ident cfg gp ef st r hb hen hgp hbad hid]
            exact ⟨fun h => by simp at h, fun h => h⟩
          · rw [trigger_correction_replace cfg gp ef st r hb hen hgp hbad hid]
            exact ⟨fun _ => rfl, fun _ => rfl⟩
  · have hen' : st.enabled = false := by simpa using hen
    rw [trigger_correction_noop cfg gp ef st (Or.inr hen')]
    exact ⟨fun h => by simp at h, fun h => h⟩

/-- Witness for C7 at a concrete input: an emission that fails after one
event still leaves the guard clear. -/
theorem c7_witness :
    (trigger_correction { prefixTemplate := "", instruction := "" }
        (fun _ _ => ProviderResult.ok "Hi there") (some 1)
        { enabled := true, buffer := ['h', 'x'], debounce_timer := false,
          is_correcting := false }).state.is_correcting = false := by
  have h := c7_guard_released { prefixTemplate := "", instruction := "" }
    (fun _ _ => ProviderResult.ok "Hi there") (some 1)
    { enabled := true, buffer := ['h', 'x'], debounce_timer := false, is_correcting := false }
  exact h.2 rfl

end AutoCorrect

namespace AutoCorrect

/-- C8: `toggle` flips the enabled flag, clears the buffer, cancels any
pending timer, and emits exactly one notification carrying the new flag;
after toggling the mode off, a flush that fires later is a complete no-op
and the quiet-period scheduler can fire nothing. -/
theorem c8_toggle_resets (cfg : ProofreadConfig) (gp : Provider) (ef : Option Nat)
    (st : AutoCorrectState) :
    (toggle st).1.enabled = !st.enabled ∧
    (toggle st).1.buffer = [] ∧
    (toggle st).1.debounce_timer = false ∧
    (toggle st).2 = [!st.enabled] ∧
    (st.enabled = true →
      trigger_correction cfg gp ef (toggle st).1 =
        { state := (toggle st).1, snapshot := none, events := [],
          guardSetDuring := false } ∧
      ∀ q : ℚ, quietFire cfg gp ef q (toggle st).1 = none) := by
  refine ⟨rfl, rfl, rfl, rfl, fun _ => ⟨?_, fun q => ?_⟩⟩
  · exact trigger_correction_noop cfg gp ef _ (Or.inl rfl)
  · simp [quietFire, toggle]

/-- Witness for C8 at a concrete input: toggling off an enabled session
with a pending timer leaves a state on which a late flush does nothing. -/
theorem c8_witness :
    trigger_correction { prefixTemplate := "", instruction := "" }
        (fun _ _ => ProviderResult.ok "zz") none
        (toggle { enabled := true, buffer := ['a', 'b'], debounce_timer := true,
                  is_correcting := false }).1 =
      { state := (toggle { enabled := true, buffer := ['a', 'b'], debounce_timer := true,
                           is_correcting := false }).1,
        snapshot := none, events := [], guardSetDuring := false } := by
  have h := c8_toggle_resets { prefixTemplate := "", instruction := "" }
    (fun _ _ => ProviderResult.ok "zz") none
    { enabled := true, buffer := ['a', 'b'], debounce_timer := true, is_correcting := false }
  exact (h.2.2.2.2 rfl).1

/-- C9: with the mode enabled and the guard clear, a backspace on an empty
buffer (no timer can then be pending, by the reachable-state invariant) is
a complete no-op, and the buffer length is never negative after any key
sequence. -/
theorem c9_backspace_empty_noop (cfg : ProofreadConfig) (gp : Provider) (ef : Option Nat)
    (st : AutoCorrectState) (hinv : TimerInv st) (hb : st.buffer = [])
    (hen : st.enabled = true) (hg : st.is_correcting = false) :
    on_key_press cfg gp ef st Key.backspace = (st, []) ∧
    ∀ keys : List Key, 0 ≤ (processKeys cfg gp ef st keys).buffer.length := by
  obtain ⟨en, buf, dt, ic⟩ := st
  simp only at hb hen hg
  subst hb hen hg
  have ht : dt = false := by
    cases h : dt
    · rfl
    · have h2 := hinv h
      simp [MIN_BUFFER_LENGTH] at h2
  subst ht
  exact ⟨rfl, fun keys => Nat.zero_le _⟩

/-- Witness for C9 at a concrete input: backspace on the enabled fresh
state changes nothing. -/
theorem c9_witness :
    on_key_press { prefixTemplate := "", instruction := "" }
      (fun _ _ => ProviderResult.err) none
      { enabled := true, buffer := [], debounce_timer := false, is_correcting := false }
      Key.backspace =
      ({ enabled := true, buffer := [], debounce_timer := false, is_correcting := false }, []) :=
  (c9_backspace_empty_noop _ _ _ _ (fun h => by simp at h) rfl rfl rfl).1

end AutoCorrect

namespace AutoCorrect

/-- Frame: `trigger_correction` never touches the debounce timer or the enabled
flag, and either leaves the guard as found or leaves it cleared. -/
theorem trigger_correction_fields (cfg : ProofreadConfig) (gp : Provider) (ef : Option Nat)
    (st : AutoCorrectState) :
    (trigger_correction cfg gp ef st).state.debounce_timer = st.debounce_timer ∧
    (trigger_correction cfg gp ef st).state.enabled = st.enabled ∧
    ((trigger_correction cfg gp ef st).state.is_correcting = st.is_correcting ∨
      (trigger_correction cfg gp ef st).state.is_correcting = false) := by
  by_cases hb : st.buffer = []
  · rw [trigger_correction_noop cfg gp ef st (Or.inl hb)]
    exact ⟨rfl, rfl, Or.inl rfl⟩
  by_cases hen : st.enabled = true
  · cases hgp : gp cfg.instruction (cfg.prefixTemplate ++ String.mk st.buffer) with
    | err =>
        rw [trigger_correction_err cfg gp ef st hb hen hgp]
        exact ⟨rfl, rfl, Or.inl rfl⟩
    | ok r =>
        by_cases hbad : r = "" ∨ containsSentinel r = true
        · rw [trigger_correction_bad cfg gp ef st r hb hen hgp hbad]
          exact ⟨rfl, rfl, Or.inl rfl⟩
        · by_cases hid : stripString r = String.mk st.buffer
          · rw [trigger_correction_ident cfg gp ef st r hb hen hgp hbad hid]
            exact ⟨rfl, rfl, Or.inl rfl⟩
          · rw [trigger_correction_replace cfg gp ef st r hb hen hgp hbad hid]
            exact ⟨rfl, rfl, Or.inr rfl⟩
  · have hen' : st.enabled = false := by simpa using hen
    rw [trigger_correction_noop cfg gp ef st (Or.inr hen')]
    exact ⟨rfl, rfl, Or.inl rfl⟩

/-- Behaviour of `on_key_press` on a printable character, when capture is active. -/
theorem on_key_press_char (cfg : ProofreadConfig) (gp : Provider) (ef : Option Nat)
    (st : AutoCorrectState) (c : Char) (hen : st.enabled = true)
    (hg : st.is_correcting = false) :
    on_key_press cfg gp ef st (Key.char c) =
      (restartTimer { st with debounce_timer := false, buffer := st.buffer ++ [c] }, []) := by
  simp [on_key_press, hen, hg]

/-- Behaviour of `on_key_press` on the space key, when capture is active. -/
theorem on_key_press_space (cfg : ProofreadConfig) (gp : Provider) (ef : Option Nat)
    (st : AutoCorrectState) (hen : st.enabled = true) (hg : st.is_correcting = false) :
    on_key_press cfg gp ef st Key.space =
      (restartTimer { st with debounce_timer := false, buffer := st.buffer ++ [' '] }, []) := by
  simp [on_key_press, hen, hg]

/-- Behaviour of `on_key_press` on backspace, when capture is active. -/
theorem on_key_press_backspace (cfg : ProofreadConfig) (gp : Provider) (ef : Option Nat)
    (st : AutoCorrectState) (hen : st.enabled = true) (hg : st.is_correcting = false) :
    on_key_press cfg gp ef st Key.backspace =
      (restartTimer { st with debounce_timer := false, buffer := st.buffer.dropLast }, []) := by
  simp [on_key_press, hen, hg]

/-- Behaviour of `on_key_press` on an "other" key, when capture is active. -/
theorem on_key_press_other (cfg : ProofreadConfig) (gp : Provider) (ef : Option Nat)
    (st : AutoCorrectState) (hen : st.enabled = true) (hg : st.is_correcting = false) :
    on_key_press cfg gp ef st Key.other =
      ({ st with debounce_timer := false, buffer := [] }, []) := by
  simp [on_key_press, hen, hg]

/-- Behaviour of `on_key_press` on enter at or above the threshold, when capture is
active: synchronous flush of the timer-cancelled state, then clear. -/
theorem on_key_press_enter_ge (cfg : ProofreadConfig) (gp : Provider) (ef : Option Nat)
    (st : AutoCorrectState) (hen : st.enabled = true) (hg : st.is_correcting = false)
    (hlen : MIN_BUFFER_LENGTH ≤ st.buffer.length) :
    on_key_press cfg gp ef st Key.enter =
      ({ (trigger_correction cfg gp ef { st with debounce_timer := false }).state with
          buffer := [] },
        (trigger_correction cfg gp ef { st with debounce_timer := false }).events) := by
  simp [on_key_press, hen, hg, hlen]

/-- Behaviour of `on_key_press` on enter below the threshold, when capture is active:
no flush, buffer cleared. -/
theorem on_key_press_enter_lt (cfg : ProofreadConfig) (gp : Provider) (ef : Option Nat)
    (st : AutoCorrectState) (hen : st.enabled = true) (hg : st.is_correcting = false)
    (hlen : ¬MIN_BUFFER_LENGTH ≤ st.buffer.length) :
    on_key_press cfg gp ef st Key.enter =
      ({ st with debounce_timer := false, buffer := [] }, []) := by
  simp [on_key_press, hen, hg, hlen]

/-- After a cancel-then-restart on a state with no pending timer, a pending
timer implies the buffer meets the threshold. -/
theorem restartTimer_inv (st : AutoCorrectState) (h : st.debounce_timer = false) :
    TimerInv (restartTimer st) := by
  intro ht
  by_cases hc : MIN_BUFFER_LENGTH ≤ st.buffer.length
  · simp [restartTimer, hc]
  · simp [restartTimer, hc] at ht
    rw [h] at ht
    exact absurd ht (by simp)

end AutoCorrect

namespace AutoCorrect

/-- Early return of `on_key_press` when disabled or correcting. -/
theorem on_key_press_gate (cfg : ProofreadConfig) (gp : Provider) (ef : Option Nat)
    (st : AutoCorrectState) (key : Key) (h : st.enabled = false ∨ st.is_correcting = true) :
    on_key_press cfg gp ef st key = (st, []) := by
  rcases h with h | h <;> simp [on_key_press, h]

/-- C10: the timer invariant — a pending debounce timer implies the buffer
holds at least `MIN_BUFFER_LENGTH` units — is preserved by every
`on_key_press` (the timer is first cancelled and only restarted when the
post-mutation buffer meets the threshold) and holds after every `toggle`. -/
theorem c10_timer_invariant (cfg : ProofreadConfig) (gp : Provider) (ef : Option Nat)
    (st : AutoCorrectState) (key : Key) (hinv : TimerInv st) :
    TimerInv (on_key_press cfg gp ef st key).1 ∧ TimerInv (toggle st).1 := by
  constructor
  · by_cases hen : st.enabled = true
    · by_cases hg : st.is_correcting = false
      · cases key with
        | char c =>
            rw [on_key_press_char cfg gp ef st c hen hg]
            exact restartTimer_inv _ rfl
        | space =>
            rw [on_key_press_space cfg gp ef st hen hg]
            exact restartTimer_inv _ rfl
        | backspace =>
            rw [on_key_press_backspace cfg gp ef st hen hg]
            exact restartTimer_inv _ rfl
        | enter =>
            by_cases hlen : MIN_BUFFER_LENGTH ≤ st.buffer.length
            · rw [on_key_press_enter_ge cfg gp ef st hen hg hlen]
              intro ht
              have h2 :=
                (trigger_correction_fields cfg gp ef { st with debounce_timer := false }).1
              have ht' : (trigger_correction cfg gp ef
                  { st with debounce_timer := false }).state.debounce_timer = true := ht
              rw [h2] at ht'
              simp at ht'
            · rw [on_key_press_enter_lt cfg gp ef st hen hg hlen]
              intro ht
              simp at ht
        | other =>
            rw [on_key_press_other cfg gp ef st hen hg]
            intro ht
            simp at ht
      · have hg' : st.is_correcting = true := by simpa using hg
        rw [on_key_press_gate cfg gp ef st key (Or.inr hg')]
        exact hinv
    · have hen' : st.enabled = false := by simpa using hen
      rw [on_key_press_gate cfg gp ef st key (Or.inl hen')]
      exact hinv
  · intro h
    simp [toggle] at h

/-- Witness for C10 at a concrete input: a state with a pending timer over
a two-character buffer keeps the invariant through a character key and a
toggle. -/
theorem c10_witness :
    TimerInv (on_key_press { prefixTemplate := "", instruction := "" }
        (fun _ _ => ProviderResult.err) none
        { enabled := true, buffer := ['a', 'b'], debounce_timer := true,
          is_correcting := false } (Key.char 'c')).1 ∧
    TimerInv (toggle { enabled := true, buffer := ['a', 'b'], debounce_timer := true,
                       is_correcting := false }).1 :=
  c10_timer_invariant _ _ _ _ _ (fun _ => by decide)

end AutoCorrect

namespace AutoCorrect

/-- A flush whose precondition holds always snapshots exactly the buffer
contents and length and leaves the buffer cleared. -/
theorem trigger_correction_snapshot (cfg : ProofreadConfig) (gp : Provider) (ef : Option Nat)
    (st : AutoCorrectState) (hb : st.buffer ≠ []) (hen : st.enabled = true) :
    (trigger_correction cfg gp ef st).snapshot =
      some (String.mk st.buffer, st.buffer.length) ∧
    (trigger_correction cfg gp ef st).state.buffer = [] := by
  cases hgp : gp cfg.instruction (cfg.prefixTemplate ++ String.mk st.buffer) with
  | err =>
      rw [trigger_correction_err cfg gp ef st hb hen hgp]
      exact ⟨rfl, rfl⟩
  | ok r =>
      by_cases hbad : r = "" ∨ containsSentinel r = true
      · rw [trigger_correction_bad cfg gp ef st r hb hen hgp hbad]
        exact ⟨rfl, rfl⟩
      · by_cases hid : stripString r = String.mk st.buffer
        · rw [trigger_correction_ident cfg gp ef st r hb hen hgp hbad hid]
          exact ⟨rfl, rfl⟩
        · rw [trigger_correction_replace cfg gp ef st r hb hen hgp hbad hid]
          exact ⟨rfl, rfl⟩

/-- A printable/space key appends its character and leaves the timer
pending exactly when the grown buffer meets the threshold. -/
theorem on_key_press_printable (cfg : ProofreadConfig) (gp : Provider) (ef : Option Nat)
    (st : AutoCorrectState) (k : Key) (c : Char) (hk : printableKeyChar k = some c)
    (hen : st.enabled = true) (hg : st.is_correcting = false) :
    (on_key_press cfg gp ef st k).1 =
      { st with
          buffer := st.buffer ++ [c],
          debounce_timer := decide (MIN_BUFFER_LENGTH ≤ st.buffer.length + 1) } := by
  cases k with
  | char c2 =>
      simp only [printableKeyChar, Option.some.injEq] at hk
      subst hk
      rw [on_key_press_char cfg gp ef st c2 hen hg]
      by_cases hc : MIN_BUFFER_LENGTH ≤ st.buffer.length + 1
      · simp [restartTimer, hc]
      · simp [restartTimer, hc]
  | space =>
      simp only [printableKeyChar, Option.some.injEq] at hk
      subst hk
      rw [on_key_press_space cfg gp ef st hen hg]
      by_cases hc : MIN_BUFFER_LENGTH ≤ st.buffer.length + 1
      · simp [restartTimer, hc]
      · simp [restartTimer, hc]
  | backspace => simp [printableKeyChar] at hk
  | enter => simp [printableKeyChar] at hk
  | other => simp [printableKeyChar] at hk

/-- One step of `processKeys`. -/
theorem processKeys_cons (cfg : ProofreadConfig) (gp : Provider) (ef : Option Nat)
    (st : AutoCorrectState) (k : Key) (keys : List Key) :
    processKeys cfg gp ef st (k :: keys) =
      processKeys cfg gp ef (on_key_press cfg gp ef st k).1 keys := rfl

/-- Delivering a run of printable/space keys with capture active appends
their characters in order, preserves the mode and guard, and leaves the
timer pending exactly when the final buffer meets the threshold. -/
theorem processKeys_printable (cfg : ProofreadConfig) (gp : Provider) (ef : Option Nat) :
    ∀ (keys : List Key) (st : AutoCorrectState), st.enabled = true →
      st.is_correcting = false →
      (∀ k ∈ keys, (printableKeyChar k).isSome) →
      (processKeys cfg gp ef st keys).enabled = true ∧
      (processKeys cfg gp ef st keys).is_correcting = false ∧
      (processKeys cfg gp ef st keys).buffer =
        st.buffer ++ keys.filterMap printableKeyChar ∧
      (processKeys cfg gp ef st keys).debounce_timer =
        (if keys = [] then st.debounce_timer
         else decide (MIN_BUFFER_LENGTH ≤ st.buffer.length + keys.length)) := by
  intro keys
  induction keys with
  | nil =>
      intro st hen hg _
      simp [processKeys, hen, hg]
  | cons k keys ih =>
      intro st hen hg hall
      obtain ⟨c, hc⟩ := Option.isSome_iff_exists.mp (hall k (by simp))
      have hstep := on_key_press_printable cfg gp ef st k c hc hen hg
      rw [processKeys_cons, hstep]
      have ih2 := ih { st with
          buffer := st.buffer ++ [c],
          debounce_timer := decide (MIN_BUFFER_LENGTH ≤ st.buffer.length + 1) }
        (by simp [hen]) (by simp [hg]) (fun k2 hk2 => hall k2 (by simp [hk2]))
      refine ⟨ih2.1, ih2.2.1, ?_, ?_⟩
      · rw [ih2.2.2.1]
        simp [List.filterMap_cons, hc]
      · rw [ih2.2.2.2]
        by_cases hkeys : keys = []
        · subst hkeys
          simp
        · simp only [hkeys, if_false, List.cons_ne_nil, List.length_cons,
            List.length_append, List.length_cons, List.length_nil]
          rw [decide_eq_decide]
          omega

/-- Printable/space keys all contribute exactly one character. -/
theorem length_filterMap_printable (keys : List Key)
    (hall : ∀ k ∈ keys, (printableKeyChar k).isSome) :
    (keys.filterMap printableKeyChar).length = keys.length := by
  induction keys with
  | nil => rfl
  | cons k keys ih =>
      obtain ⟨c, hc⟩ := Option.isSome_iff_exists.mp (hall k (by simp))
      simp [List.filterMap_cons, hc, ih (fun k2 hk2 => hall k2 (by simp [hk2]))]

/-- Character keys made from a list of characters capture exactly it. -/
theorem filterMap_printable_map_char (cs : List Char) :
    (cs.map Key.char).filterMap printableKeyChar = cs := by
  induction cs with
  | nil => rfl
  | cons c cs ih => simp [List.filterMap_cons, printableKeyChar, ih]

end AutoCorrect

namespace AutoCorrect

/-- C1: any run of at least two printable/space keys, delivered with the
mode enabled and the guard clear (each within the pause delay of the last,
so no intermediate flush fires), followed by a quiet period of at least
`PAUSE_DELAY`, leaves exactly one pending timer; that timer fires exactly
one flush whose snapshot is the in-order concatenation of the typed
characters, and afterwards no further flush can fire without new input. -/
theorem c1_debounced_single_flush (cfg : ProofreadConfig) (gp : Provider) (ef : Option Nat)
    (keys : List Key) (quiet : ℚ)
    (hall : ∀ k ∈ keys, (printableKeyChar k).isSome)
    (hlen : 2 ≤ keys.length) (hq : PAUSE_DELAY ≤ quiet) :
    (processKeys cfg gp ef (toggle initState).1 keys).debounce_timer = true ∧
    quietFire cfg gp ef quiet (processKeys cfg gp ef (toggle initState).1 keys) =
      some (trigger_correction cfg gp ef
        { processKeys cfg gp ef (toggle initState).1 keys with debounce_timer := false }) ∧
    (trigger_correction cfg gp ef
        { processKeys cfg gp ef (toggle initState).1 keys with
          debounce_timer := false }).snapshot =
      some (String.mk (keys.filterMap printableKeyChar),
        (keys.filterMap printableKeyChar).length) ∧
    ∀ quiet2 : ℚ, quietFire cfg gp ef quiet2
        (trigger_correction cfg gp ef
          { processKeys cfg gp ef (toggle initState).1 keys with
            debounce_timer := false }).state = none := by
  have hne : keys ≠ [] := by
    intro h0
    rw [h0] at hlen
    simp at hlen
  have h := processKeys_printable cfg gp ef keys (toggle initState).1 rfl rfl hall
  have htimer : (processKeys cfg gp ef (toggle initState).1 keys).debounce_timer = true := by
    rw [h.2.2.2]
    simp only [hne, if_false]
    have : (toggle initState).1.buffer.length = 0 := rfl
    rw [this]
    simp only [Nat.zero_add, decide_eq_true_eq]
    exact hlen
  have hbuf : (processKeys cfg gp ef (toggle initState).1 keys).buffer =
      keys.filterMap printableKeyChar := by
    rw [h.2.2.1]
    rfl
  have hchars_ne : keys.filterMap printableKeyChar ≠ [] := by
    intro h0
    have := length_filterMap_printable keys hall
    rw [h0] at this
    simp at this
    omega
  have hsnap := trigger_correction_snapshot cfg gp ef
    { processKeys cfg gp ef (toggle initState).1 keys with debounce_timer := false }
    (by simpa [hbuf] using hchars_ne) (by simpa using h.1)
  refine ⟨htimer, ?_, ?_, ?_⟩
  · simp [quietFire, htimer, hq]
  · rw [hsnap.1]
    simp [hbuf]
  · intro quiet2
    have hf := (trigger_correction_fields cfg gp ef
      { processKeys cfg gp ef (toggle initState).1 keys with debounce_timer := false }).1
    simp [quietFire, hf]

/-- Witness for C1 at a concrete input: typing `h` then `i` and waiting the
full pause delay snapshots `"hi"`. -/
theorem c1_witness :
    (trigger_correction { prefixTemplate := "", instruction := "" }
        (fun _ _ => ProviderResult.err) none
        { processKeys { prefixTemplate := "", instruction := "" }
            (fun _ _ => ProviderResult.err) none (toggle initState).1
            [Key.char 'h', Key.char 'i'] with
          debounce_timer := false }).snapshot = some (String.mk ['h', 'i'], 2) := by
  have h := c1_debounced_single_flush { prefixTemplate := "", instruction := "" }
    (fun _ _ => ProviderResult.err) none [Key.char 'h', Key.char 'i'] 2
    (by decide) (by decide) (by norm_num [PAUSE_DELAY])
  have h2 := h.2.2.1
  simpa [printableKeyChar] using h2

/-- C2: a flush whose precondition holds snapshots exactly the buffer text
and length and clears the buffer before the provider call returns, so
characters typed during the round trip build a fresh buffer whose own later
flush snapshots exactly those new characters and none of the old text. -/
theorem c2_snapshot_clear_fresh_buffer (cfg : ProofreadConfig) (gp : Provider) (ef : Option Nat)
    (st : AutoCorrectState) (hb : st.buffer ≠ []) (hen : st.enabled = true)
    (hg : st.is_correcting = false) :
    (trigger_correction cfg gp ef st).snapshot =
      some (String.mk st.buffer, st.buffer.length) ∧
    (trigger_correction cfg gp ef st).state.buffer = [] ∧
    ∀ cs : List Char, cs ≠ [] →
      (processKeys cfg gp ef (trigger_correction cfg gp ef st).state
          (cs.map Key.char)).buffer = cs ∧
      ∀ (cfg2 : ProofreadConfig) (gp2 : Provider) (ef2 : Option Nat),
        (trigger_correction cfg2 gp2 ef2
            (processKeys cfg gp ef (trigger_correction cfg gp ef st).state
              (cs.map Key.char))).snapshot = some (String.mk cs, cs.length) := by
  have hsnap := trigger_correction_snapshot cfg gp ef st hb hen
  have hfields := trigger_correction_fields cfg gp ef st
  have hen2 : (trigger_correction cfg gp ef st).state.enabled = true := by
    rw [hfields.2.1]
    exact hen
  have hg2 : (trigger_correction cfg gp ef st).state.is_correcting = false := by
    rcases hfields.2.2 with h | h
    · rw [h]
      exact hg
    · exact h
  refine ⟨hsnap.1, hsnap.2, fun cs hcs => ?_⟩
  have hall : ∀ k ∈ cs.map Key.char, (printableKeyChar k).isSome := by
    intro k hk
    simp only [List.mem_map] at hk
    obtain ⟨c, _, rfl⟩ := hk
    rfl
  have hp := processKeys_printable cfg gp ef (cs.map Key.char)
    (trigger_correction cfg gp ef st).state hen2 hg2 hall
  have hbuf2 : (processKeys cfg gp ef (trigger_correction cfg gp ef st).state
      (cs.map Key.char)).buffer = cs := by
    rw [hp.2.2.1, hsnap.2, filterMap_printable_map_char]
    rfl
  refine ⟨hbuf2, fun cfg2 gp2 ef2 => ?_⟩
  have hsnap2 := trigger_correction_snapshot cfg2 gp2 ef2
    (processKeys cfg gp ef (trigger_correction cfg gp ef st).state (cs.map Key.char))
    (by rw [hbuf2]; exact hcs) hp.1
  rw [hsnap2.1, hbuf2]

/-- Witness for C2 at a concrete input: flushing `"hi"`, then typing
`o`, `k` during the round trip, makes the second flush snapshot exactly
`"ok"`. -/
theorem c2_witness :
    (trigger_correction { prefixTemplate := "", instruction := "" }
        (fun _ _ => ProviderResult.err) none
        (processKeys { prefixTemplate := "", instruction := "" }
          (fun _ _ => ProviderResult.err) none
          (trigger_correction { prefixTemplate := "", instruction := "" }
            (fun _ _ => ProviderResult.err) none
            { enabled := true, buffer := ['h', 'i'], debounce_timer := false,
              is_correcting := false }).state
          [Key.char 'o', Key.char 'k'])).snapshot = some (String.mk ['o', 'k'], 2) := by
  have h := c2_snapshot_clear_fresh_buffer { prefixTemplate := "", instruction := "" }
    (fun _ _ => ProviderResult.err) none
    { enabled := true, buffer := ['h', 'i'], debounce_timer := false, is_correcting := false }
    (by decide) rfl rfl
  have h2 := (h.2.2 ['o', 'k'] (by decide)).2 { prefixTemplate := "", instruction := "" }
    (fun _ _ => ProviderResult.err) none
  simpa using h2

end AutoCorrect
